import Mathlib

/-!
Verification of the conversation/tool-orchestration core of the
music_masher repository (`app/agents/conversation_agent.py`,
`app/services/tool_orchestrator.py`, `app/db/conversation_db.py`).

The Python source is shallowly embedded: dictionaries with optional keys
become structures of `Option` fields (`none` = key absent), Python
truthiness of a list is emptiness of the list, `x in s` on strings is
substring containment on lowercased text, and the async control flow of
the orchestrator is embedded as a total function over an explicit
environment describing the behavior of the external search capability
(return / raise / timeout), threading the database state and emitting an
event trace for the temporal claims.
-/

/-- Substring test on character lists: `needle` occurs contiguously in `hay`.
Models Python `needle in hay` for strings. -/
def subList (needle : List Char) : List Char → Bool
  | [] => needle.isEmpty
  | c :: rest => needle.isPrefixOf (c :: rest) || subList needle rest

/-- Python `needle in hay` on strings. -/
def strContains (hay needle : String) : Bool :=
  subList needle.data hay.data

/-- Python `s.lower()`, written by structural recursion over the
character list (equivalent to core `String.toLower`, which does not
reduce inside the kernel). -/
def strLower (s : String) : String :=
  ⟨s.data.map Char.toLower⟩

/-- Python `any(word in message_lower for word in words)`. -/
def anyWord (ml : String) (words : List String) : Bool :=
  words.any (fun w => strContains ml w)

/-- `ConversationPhase` enum from `app/agents/conversation_agent.py`
(the agent redeclares its own six-value enum; the db layer has awider
seven-value one). -/
inductive ConversationPhase where
  | INITIAL
  | GENRE_EXPLORATION
  | EDUCATIONAL_CLARIFICATION
  | CULTURAL_RESEARCH
  | READY_FOR_GENERATION
  | ERROR
  deriving Repr, DecidableEq

/-- `.value` of the agent phases (the string enum payload). -/
def ConversationPhase.value : ConversationPhase → String
  | .INITIAL => "initial"
  | .GENRE_EXPLORATION => "genre_exploration"
  | .EDUCATIONAL_CLARIFICATION => "educational_clarification"
  | .CULTURAL_RESEARCH => "cultural_research"
  | .READY_FOR_GENERATION => "ready_for_generation"
  | .ERROR => "error"

/-- `ConversationPhase(s)` construction from a string, raising `ValueError`
on an unknown value (modeled as `none`). -/
def phaseOfString (s : String) : Option ConversationPhase :=
  if s = "initial" then some .INITIAL
  else if s = "genre_exploration" then some .GENRE_EXPLORATION
  else if s = "educational_clarification" then some .EDUCATIONAL_CLARIFICATION
  else if s = "cultural_research" then some .CULTURAL_RESEARCH
  else if s = "ready_for_generation" then some .READY_FOR_GENERATION
  else if s = "error" then some .ERROR
  else none

/-- `SkillLevel` enum. -/
inductive SkillLevel where
  | BEGINNER
  | INTERMEDIATE
  | ADVANCED
  deriving Repr, DecidableEq

/-- The extracted-context dictionary. Each Python dict key becomes an
`Option` field; `none` means the key is absent. `target_audience` holds an
`Option (Option String)`: the outer layer is key presence, the inner the
possibly-`None` Python value. -/
structure ExtractedContext where
  message : Option String := none
  phase : Option ConversationPhase := none
  timestamp : Option String := none
  educational_goals : Option (List String) := none
  target_audience : Option (Option String) := none
  music_interests : Option (List String) := none
  skill_level : Option SkillLevel := none
  mentioned_genres : Option (List String) := none
  cultural_elements : Option (List String) := none
  combination_ideas : Option (List String) := none
  theory_concepts : Option (List String) := none
  learning_objectives : Option (List String) := none
  assessment_methods : Option (List String) := none
  historical_context : Option (List String) := none
  social_significance : Option (List String) := none
  has_educational_goals : Option Bool := none
  ready_for_generation : Option Bool := none
  deriving Repr, DecidableEq

/-- Key-wise right-biased merge: `base.update(upd)` — a key of `upd`
overrides the same key of `base`. -/
def pick {α : Type} (u b : Option α) : Option α :=
  match u with
  | some v => some v
  | none => b

/-- `context.update(phase_specific_context)` from `_extract_context`. -/
def ctxUpdate (base upd : ExtractedContext) : ExtractedContext where
  message := pick upd.message base.message
  phase := pick upd.phase base.phase
  timestamp := pick upd.timestamp base.timestamp
  educational_goals := pick upd.educational_goals base.educational_goals
  target_audience := pick upd.target_audience base.target_audience
  music_interests := pick upd.music_interests base.music_interests
  skill_level := pick upd.skill_level base.skill_level
  mentioned_genres := pick upd.mentioned_genres base.mentioned_genres
  cultural_elements := pick upd.cultural_elements base.cultural_elements
  combination_ideas := pick upd.combination_ideas base.combination_ideas
  theory_concepts := pick upd.theory_concepts base.theory_concepts
  learning_objectives := pick upd.learning_objectives base.learning_objectives
  assessment_methods := pick upd.assessment_methods base.assessment_methods
  historical_context := pick upd.historical_context base.historical_context
  social_significance := pick upd.social_significance base.social_significance
  has_educational_goals := pick upd.has_educational_goals base.has_educational_goals
  ready_for_generation := pick upd.ready_for_generation base.ready_for_generation

/-- Genre list of `_extract_initial_context`. -/
def initial_genre_list : List String :=
  ["jazz", "classical", "rock", "pop", "hip hop", "blues", "folk",
   "electronic", "country", "reggae", "soul", "r&b", "metal", "punk",
   "funk", "disco", "latin", "world", "ambient", "experimental"]

/-- Genre list of `_extract_genre_context`. -/
def genre_list : List String :=
  ["jazz", "rock", "pop", "hip hop", "classical", "blues", "country",
   "electronic", "folk", "reggae", "soul", "r&b", "metal", "punk",
   "funk", "disco", "latin", "world", "ambient", "experimental"]

/-- Cultural-element keyword list (the source list repeats "ceremony"). -/
def cultural_element_list : List String :=
  ["history", "tradition", "culture", "society", "community",
   "ceremony", "celebration", "ritual", "spiritual", "religious",
   "heritage", "custom", "practice", "belief", "ceremony"]

/-- Music-theory concept keyword list of `_extract_educational_context`. -/
def theory_concept_list : List String :=
  ["rhythm", "melody", "harmony", "chord", "scale", "key", "tempo",
   "beat", "syncopation", "polyrhythm", "modulation", "transposition"]

def beginner_words : List String := ["beginner", "new", "start", "basic"]

def advanced_words : List String := ["advanced", "expert", "professional"]

def teach_words : List String := ["teach", "teaching", "education", "learn", "learning"]

def learn_words : List String := ["learn", "learning", "study", "understand"]

def higher_ed_words : List String := ["high school", "college", "university", "student", "students"]

def k12_words : List String := ["elementary", "middle school", "grade"]

def confirm_words : List String := ["yes", "ready", "go", "create", "generate"]

/-- Skill-level branch shared by the initial and educational extractors. -/
def extract_skill_level (ml : String) : SkillLevel :=
  if anyWord ml beginner_words then .BEGINNER
  else if anyWord ml advanced_words then .ADVANCED
  else .INTERMEDIATE

/-- `_extract_initial_context`: the `mentioned_genres` key is only created
when at least one genre matches. -/
def extract_initial_context (message : String) : ExtractedContext :=
  let ml := strLower message
  let goals := (if anyWord ml teach_words then ["teaching"] else [])
    ++ (if anyWord ml learn_words then ["learning"] else [])
  let audience : Option String :=
    if anyWord ml higher_ed_words then some "higher_education"
    else if anyWord ml k12_words then some "k12_education"
    else none
  let gs := initial_genre_list.filter (fun g => strContains ml g)
  { educational_goals := some goals
    target_audience := some audience
    music_interests := some gs
    skill_level := some (extract_skill_level ml)
    mentioned_genres := if gs.isEmpty then none else some gs }

/-- `_extract_genre_context`: always creates the `mentioned_genres` and
`cultural_elements` keys (possibly with empty lists). -/
def extract_genre_context (message : String) : ExtractedContext :=
  let ml := strLower message
  { mentioned_genres := some (genre_list.filter (fun g => strContains ml g))
    cultural_elements := some (cultural_element_list.filter (fun e => strContains ml e))
    combination_ideas := some [] }

/-- `_extract_educational_context`: always creates the `theory_concepts`
key (possibly with an empty list). -/
def extract_educational_context (message : String) : ExtractedContext :=
  let ml := strLower message
  { skill_level := some (extract_skill_level ml)
    theory_concepts := some (theory_concept_list.filter (fun c => strContains ml c))
    learning_objectives := some []
    assessment_methods := some [] }

/-- `_extract_cultural_context`: always creates the `cultural_elements`
key (possibly with an empty list). -/
def extract_cultural_context (message : String) : ExtractedContext :=
  let ml := strLower message
  { cultural_elements := some (cultural_element_list.filter (fun e => strContains ml e))
    historical_context := some []
    social_significance := some [] }

/-- `_extract_generation_context`: `ready_for_generation` key only on a
confirmation word. -/
def extract_generation_context (message : String) : ExtractedContext :=
  let ml := strLower message
  if anyWord ml confirm_words then { ready_for_generation := some true } else {}

/-- `_extract_context`: the base dict `{message, phase, timestamp}`
updated with the phase-specific extraction. `ts` stands for the
`datetime.now` ISO timestamp. -/
def extract_context (message : String) (phase : ConversationPhase) (ts : String) :
    ExtractedContext :=
  let base : ExtractedContext :=
    { message := some message, phase := some phase, timestamp := some ts }
  let upd :=
    match phase with
    | .INITIAL => extract_initial_context message
    | .GENRE_EXPLORATION => extract_genre_context message
    | .EDUCATIONAL_CLARIFICATION => extract_educational_context message
    | .CULTURAL_RESEARCH => extract_cultural_context message
    | .READY_FOR_GENERATION => extract_generation_context message
    | .ERROR => {}
  ctxUpdate base upd

/-- The dictionary returned by `_determine_phase_transition`. -/
structure TransitionDecision where
  should_transition : Bool
  new_phase : ConversationPhase
  deriving Repr, DecidableEq

/-- Trigger-word list of the INITIAL branch of `_determine_phase_transition`. -/
def initial_transition_words : List String :=
  ["genre", "music", "style", "type", "explore", "jazz", "rock", "pop",
   "classical", "blues", "country", "electronic", "folk", "reggae",
   "soul", "r&b", "metal", "punk", "funk", "disco", "latin", "world",
   "ambient", "experimental"]

/-- Python truthiness of `key in ctx and ctx[key]` for a list-valued key. -/
def truthyListKey : Option (List String) → Bool
  | some l => !l.isEmpty
  | none => false

/-- `_determine_phase_transition` from `conversation_agent.py`. Note the
source tests *key presence* (`'theory_concepts' in extracted_context`) in
the EDUCATIONAL_CLARIFICATION and CULTURAL_RESEARCH branches, but list
truthiness in the GENRE_EXPLORATION branch. The `ai_response` argument is
unused by the source as well. -/
def determine_phase_transition (current_phase : ConversationPhase)
    (user_message : String) (_ai_response : String) (ctx : ExtractedContext) :
    TransitionDecision :=
  let ml := strLower user_message
  match current_phase with
  | .INITIAL =>
      if anyWord ml initial_transition_words then
        { should_transition := true, new_phase := .GENRE_EXPLORATION }
      else
        { should_transition := false, new_phase := current_phase }
  | .GENRE_EXPLORATION =>
      if truthyListKey ctx.mentioned_genres then
        { should_transition := true, new_phase := .EDUCATIONAL_CLARIFICATION }
      else
        { should_transition := false, new_phase := current_phase }
  | .EDUCATIONAL_CLARIFICATION =>
      if ctx.theory_concepts.isSome || ctx.has_educational_goals.isSome then
        { should_transition := true, new_phase := .CULTURAL_RESEARCH }
      else
        { should_transition := false, new_phase := current_phase }
  | .CULTURAL_RESEARCH =>
      if ctx.cultural_elements.isSome || ctx.mentioned_genres.isSome then
        { should_transition := true, new_phase := .READY_FOR_GENERATION }
      else
        { should_transition := false, new_phase := current_phase }
  | .READY_FOR_GENERATION =>
      -- the source returns no-transition both when the key is present and
      -- in the fall-through default
      if ctx.ready_for_generation.isSome then
        { should_transition := false, new_phase := current_phase }
      else
        { should_transition := false, new_phase := current_phase }
  | .ERROR =>
      { should_transition := false, new_phase := current_phase }

/-- `ToolExecutionStatus` enum from `tool_orchestrator.py`. -/
inductive ToolExecutionStatus where
  | PENDING
  | RUNNING
  | COMPLETED
  | FAILED
  | TIMEOUT
  deriving Repr, DecidableEq

/-- `.value` payload of the status enum. -/
def ToolExecutionStatus.value : ToolExecutionStatus → String
  | .PENDING => "pending"
  | .RUNNING => "running"
  | .COMPLETED => "completed"
  | .FAILED => "failed"
  | .TIMEOUT => "timeout"

/-- A status is terminal when no further lifecycle transition follows. -/
def ToolExecutionStatus.isTerminal : ToolExecutionStatus → Bool
  | .COMPLETED => true
  | .FAILED => true
  | .TIMEOUT => true
  | _ => false

/-- `ToolCallType` enum from `app/db/enums.py`. -/
inductive ToolCallType where
  | WEB_SEARCH
  | MUSIC_ANALYSIS
  | CULTURAL_RESEARCH
  | THEORY_EXPLANATION
  deriving Repr, DecidableEq

/-- `.value` payload of the tool-call type enum. -/
def ToolCallType.value : ToolCallType → String
  | .WEB_SEARCH => "web_search"
  | .MUSIC_ANALYSIS => "music_analysis"
  | .CULTURAL_RESEARCH => "cultural_research"
  | .THEORY_EXPLANATION => "theory_explanation"

/-- One entry of an embedded `results` list inside a search response.
`process_search_results` inspects `isinstance(entry, dict)` and the
presence of a `"url"` key, so an entry is either a string-valued dict or
some non-dict value. -/
inductive RawEntry where
  | dictEntry (fields : List (String × String))
  | nonDict
  deriving Repr, DecidableEq

/-- `entry["url"]` when `isinstance(entry, dict) and "url" in entry`. -/
def RawEntry.url : RawEntry → Option String
  | .dictEntry fields => fields.lookup "url"
  | .nonDict => none

/-- The dict returned by the `SearchCapability`
(`search_educational_content`); `none` fields model absent keys. -/
structure SearchResponse where
  query : Option String := none
  results : Option (List RawEntry) := none
  error : Option String := none
  enhanced_query : Option String := none
  deriving Repr, DecidableEq

/-- Python truthiness of `"error" in search_result and search_result["error"]`
for a string-valued error field. -/
def errorTruthy : Option String → Bool
  | some s => !s.isEmpty
  | none => false

/-- Rendering standing for Python `str(search_result)` used to fill
`output_data`; no claim depends on the exact text. -/
def renderEntry : RawEntry → String
  | .dictEntry fields =>
      String.intercalate ", " (fields.map (fun p => p.1 ++ ": " ++ p.2))
  | .nonDict => "nondict"

/-- Rendering of an optional string field for `renderResponse`. -/
def renderOpt : Option String → String
  | some s => s
  | none => "None"

/-- Rendering standing for Python `str(search_result)`. -/
def renderResponse (r : SearchResponse) : String :=
  "query: " ++ renderOpt r.query ++ "; results: " ++
    (match r.results with
     | some l => String.intercalate " | " (l.map renderEntry)
     | none => "absent") ++
  "; error: " ++ renderOpt r.error ++
  "; enhanced_query: " ++ renderOpt r.enhanced_query

/-- The `ToolCallResult` dataclass. `execution_time` keeps only the
elapsed measure as a natural number; every claim depends only on its
presence. -/
structure ToolCallResult where
  tool_type : ToolCallType
  input_data : String
  output_data : Option String := none
  status : ToolExecutionStatus := .PENDING
  error_message : Option String := none
  execution_time : Option Nat := none
  metadata : Option SearchResponse := none
  deriving Repr, DecidableEq

/-- One row of the `tool_calls` table. -/
structure ToolCallRow where
  conversation_id : String
  tool_type : String
  input_data : String
  output_data : Option String
  status : String
  error_message : Option String
  created_at : Nat
  completed_at : Option Nat
  deriving Repr, DecidableEq

/-- In-memory model of the tool-call side of the store. Row ids start at 1
(`sqlite` rowids are positive, so a returned id is always truthy). The
store itself is modeled as reliable; its own exception paths return
`None`/`False` in the source and do not raise. -/
structure ToolDB where
  rows : List (Nat × ToolCallRow) := []
  nextId : Nat := 1
  deriving Repr, DecidableEq

/-- `AsyncConversationDB.add_tool_call`: inserts the row and returns its
id; `completed_at` is set at insert time only for the terminal statuses
named in the source. -/
def ToolDB.addToolCall (db : ToolDB) (conversation_id : String)
    (tool_type : ToolCallType) (input_data : String)
    (output_data : Option String) (status : String)
    (error_message : Option String) (now : Nat) : Nat × ToolDB :=
  let completed_at := if ["completed", "failed"].contains status then some now else none
  let row : ToolCallRow :=
    { conversation_id, tool_type := tool_type.value, input_data,
      output_data, status, error_message, created_at := now, completed_at }
  (db.nextId, { rows := db.rows ++ [(db.nextId, row)], nextId := db.nextId + 1 })

/-- The SET clause of `update_tool_call`: overwrites `output_data`,
`status`, `error_message`, and `completed_at` (the latter set only for
the terminal statuses named in the source). -/
def applyUpdate (out : Option String) (st : String) (em : Option String)
    (now : Nat) (r : ToolCallRow) : ToolCallRow :=
  { r with
    output_data := out, status := st, error_message := em,
    completed_at := if ["completed", "failed"].contains st then some now else none }

/-- `AsyncConversationDB.update_tool_call`: rewrites the addressed row. -/
def ToolDB.updateToolCall (db : ToolDB) (tool_call_id : Nat)
    (output_data : Option String) (status : String)
    (error_message : Option String) (now : Nat) : ToolDB :=
  { db with
    rows := db.rows.map (fun p =>
      if p.1 = tool_call_id then
        (p.1, applyUpdate output_data status error_message now p.2)
      else p) }

/-- Lookup of a tool-call row by id. -/
def ToolDB.find (db : ToolDB) (tool_call_id : Nat) : Option ToolCallRow :=
  db.rows.lookup tool_call_id

/-- Events emitted by one `execute_web_search` call, in program order:
the tracking insert, the point where the awaited search executes, and the
tracking update. -/
inductive OrchEvent where
  | dbAdd (id : Nat) (status : String)
  | searchExec
  | dbUpdate (id : Nat) (status : String)
  deriving Repr, DecidableEq

/-- Behavior of the awaited search region for one call: the capability
returns a response, the capability raises (caught inside
`_execute_search_with_error_handling`), the `wait_for` times out, or some
other exception reaches the outer `except Exception` handler. -/
inductive SearchBehavior where
  | returns (resp : SearchResponse)
  | raises (msg : String)
  | timesOut
  | outerRaises (msg : String)
  deriving Repr, DecidableEq

/-- The awaited inner call returned a dictionary (it "ran to completion"):
exactly the non-timeout, non-outer-exception behaviors. -/
def SearchBehavior.ranToCompletion : SearchBehavior → Bool
  | .returns _ => true
  | .raises _ => true
  | .timesOut => false
  | .outerRaises _ => false

/-- `AsyncToolOrchestrator` configuration. `max_concurrent_tools` bounds
the scheduling only and cannot influence any returned value; it is kept
for fidelity. `tool_timeout` is carried as the printed form interpolated
into the timeout message. -/
structure Orchestrator where
  hasWebSearchService : Bool := true
  hasDb : Bool := true
  max_concurrent_tools : Nat := 3
  tool_timeout : String := "30.0"
  deriving Repr, DecidableEq

/-- The degraded response built when `web_search_service` is absent. -/
def unavailableResponse (query : String) : SearchResponse :=
  { query := some query, results := some [],
    error := some "Web search service not available",
    enhanced_query := some query }

/-- The response built when the capability raises `e`
(`"error": str(e)`). -/
def exceptionResponse (query msg : String) : SearchResponse :=
  { query := some query, results := some [], error := some msg,
    enhanced_query := some query }

/-- `_execute_search_with_error_handling`: absent service degrades to an
explicit error dict; a raising capability is caught and converted; a
returning capability's dict passes through. -/
def execute_search_with_error_handling (hasService : Bool) (query : String)
    (serviceOutcome : Except String SearchResponse) : SearchResponse :=
  if hasService then
    match serviceOutcome with
    | .ok resp => resp
    | .error msg => exceptionResponse query msg
  else unavailableResponse query

/-- The `if tool_call_id and self.db:` guarded `update_tool_call`. Row ids
are positive, so truthiness of `tool_call_id` is its presence. -/
def maybeUpdate (o : Orchestrator) (tool_call_id : Option Nat) (db : ToolDB)
    (output_data : Option String) (status : String)
    (error_message : Option String) (now : Nat) : ToolDB × List OrchEvent :=
  match tool_call_id with
  | some id =>
      if o.hasDb then
        (db.updateToolCall id output_data status error_message now,
         [.dbUpdate id status])
      else (db, [])
  | none => (db, [])

/-- The timeout message of `execute_web_search`. -/
def timeoutMessage (o : Orchestrator) : String :=
  "Web search timed out after " ++ o.tool_timeout ++ " seconds"

/-- `execute_web_search` from `tool_orchestrator.py`, as a total function
of the search behavior. Returns the `ToolCallResult`, the final store
state and the emitted event trace. `now` models the wall clock at entry
and `elapsed` the measured duration of a completed await. -/
def execute_web_search (o : Orchestrator) (query : String)
    (conversation_id : Option String) (b : SearchBehavior) (db : ToolDB)
    (now elapsed : Nat) : ToolCallResult × ToolDB × List OrchEvent :=
  let tracking := o.hasDb && conversation_id.isSome
  let added := db.addToolCall (conversation_id.getD "")
    ToolCallType.WEB_SEARCH query none "running" none now
  let tool_call_id := if tracking then some added.1 else none
  let db1 := if tracking then added.2 else db
  let ev1 : List OrchEvent :=
    if tracking then [OrchEvent.dbAdd added.1 "running"] else []
  match b with
  | .timesOut =>
      let error_msg := timeoutMessage o
      let upd := maybeUpdate o tool_call_id db1 none "timeout" (some error_msg) now
      ({ tool_type := .WEB_SEARCH, input_data := query,
         status := .TIMEOUT, error_message := some error_msg },
       upd.1, ev1 ++ [.searchExec] ++ upd.2)
  | .outerRaises m =>
      let error_msg := "Web search failed: " ++ m
      let upd := maybeUpdate o tool_call_id db1 none "failed" (some error_msg) now
      ({ tool_type := .WEB_SEARCH, input_data := query,
         status := .FAILED, error_message := some error_msg },
       upd.1, ev1 ++ [.searchExec] ++ upd.2)
  | .returns resp =>
      let search_result :=
        execute_search_with_error_handling o.hasWebSearchService query (.ok resp)
      let has_error := errorTruthy search_result.error
      let status := if has_error then ToolExecutionStatus.FAILED else .COMPLETED
      let error_message := if has_error then search_result.error else none
      let upd := maybeUpdate o tool_call_id db1
        (some (renderResponse search_result)) status.value error_message now
      ({ tool_type := .WEB_SEARCH, input_data := query,
         output_data := some (renderResponse search_result), status,
         execution_time := some elapsed, metadata := some search_result,
         error_message }, upd.1, ev1 ++ [.searchExec] ++ upd.2)
  | .raises msg =>
      let search_result :=
        execute_search_with_error_handling o.hasWebSearchService query (.error msg)
      let has_error := errorTruthy search_result.error
      let status := if has_error then ToolExecutionStatus.FAILED else .COMPLETED
      let error_message := if has_error then search_result.error else none
      let upd := maybeUpdate o tool_call_id db1
        (some (renderResponse search_result)) status.value error_message now
      ({ tool_type := .WEB_SEARCH, input_data := query,
         output_data := some (renderResponse search_result), status,
         execution_time := some elapsed, metadata := some search_result,
         error_message }, upd.1, ev1 ++ [.searchExec] ++ upd.2)

/-- Outcome of one task of `asyncio.gather(..., return_exceptions=True)`:
either the task ran `execute_web_search` under some search behavior, or an
exception escaped the task and is returned as a value. -/
inductive TaskOutcome where
  | runs (b : SearchBehavior) (elapsed : Nat)
  | escapes (msg : String)
  deriving Repr, DecidableEq

/-- The `FAILED` result built for an index whose task outcome is an
exception object. -/
def escapedResult (query msg : String) : ToolCallResult :=
  { tool_type := .WEB_SEARCH, input_data := query,
    status := .FAILED, error_message := some msg }

/-- Store/trace threading for `execute_concurrent_searches`. `gather`
interleaves the per-task store writes nondeterministically; the returned
results are independent of the store, so a left-to-right serialization is
fixed here. -/
def concurrentGo (o : Orchestrator) (conversation_id : Option String)
    (now : Nat) : List (String × TaskOutcome) → ToolDB →
    List ToolCallResult × ToolDB × List OrchEvent
  | [], db => ([], db, [])
  | (q, t) :: rest, db =>
      match t with
      | .escapes msg =>
          let tail := concurrentGo o conversation_id now rest db
          (escapedResult q msg :: tail.1, tail.2.1, tail.2.2)
      | .runs b elapsed =>
          let one := execute_web_search o q conversation_id b db now elapsed
          let tail := concurrentGo o conversation_id now rest one.2.1
          (one.1 :: tail.1, tail.2.1, one.2.2 ++ tail.2.2)

/-- `execute_concurrent_searches`: empty input short-circuits to the empty
list; otherwise one `execute_web_search` task per query, index-aligned,
with per-index escaped exceptions converted to `FAILED` results. -/
def execute_concurrent_searches (o : Orchestrator) (queries : List String)
    (conversation_id : Option String) (outcomes : List TaskOutcome)
    (db : ToolDB) (now : Nat) :
    List ToolCallResult × ToolDB × List OrchEvent :=
  if queries.isEmpty then ([], db, [])
  else concurrentGo o conversation_id now (queries.zip outcomes) db

/-- The dict returned by `process_search_results`. -/
structure SynthesizedResults where
  successful_searches : Nat
  failed_searches : Nat
  total_results : Nat
  results : List RawEntry
  errors : List String
  deriving Repr, DecidableEq

/-- The flattening loop of `process_search_results`: only dict metadata
carrying a `results` key contributes (a falsy/absent metadata or a missing
key contributes nothing, exactly as in the source). -/
def combinedResults (successful : List ToolCallResult) : List RawEntry :=
  successful.flatMap (fun r =>
    match r.metadata with
    | some md =>
        match md.results with
        | some l => l
        | none => []
    | none => [])

/-- The URL-deduplication loop: entries that are not dicts or lack a
`url` key are dropped; among the rest the first occurrence of each URL is
kept, in order. `seen` is the `seen_urls` set. -/
def dedupByUrl : List RawEntry → List String → List RawEntry
  | [], _ => []
  | e :: rest, seen =>
      match e.url with
      | some u =>
          if seen.contains u then dedupByUrl rest seen
          else e :: dedupByUrl rest (u :: seen)
      | none => dedupByUrl rest seen

/-- `process_search_results` from `tool_orchestrator.py`. The `errors`
comprehension filter `if r.error_message` keeps only messages that are
present and non-empty (Python truthiness). -/
def process_search_results (results : List ToolCallResult) : SynthesizedResults :=
  let successful_results := results.filter (fun r => r.status == .COMPLETED)
  let failed_results := results.filter (fun r => !(r.status == .COMPLETED))
  let unique_results := dedupByUrl (combinedResults successful_results) []
  { successful_searches := successful_results.length
    failed_searches := failed_results.length
    total_results := unique_results.length
    results := unique_results
    errors := failed_results.filterMap (fun r =>
      match r.error_message with
      | some m => if m.isEmpty then none else some m
      | none => none) }

/-- One row of the `conversations` table. -/
structure ConvRow where
  phase : String
  created_at : Nat
  updated_at : Nat
  metadata : Option String := none
  deriving Repr, DecidableEq

/-- One row of the `messages` table. -/
structure MsgRow where
  role : String
  content : String
  timestamp : Nat
  deriving Repr, DecidableEq

/-- In-memory model of the conversation side of the store. -/
structure AgentDB where
  convs : List (String × ConvRow) := []
  msgs : List (String × MsgRow) := []
  deriving Repr, DecidableEq

/-- Environment of one `process_message` turn: whether the store is
unreachable (its methods then take their internal exception branches:
reads return `None`/empty, writes return `False`), and the LLM outcome
(`some s` = the model answers `s`, `none` = `ainvoke` raises and the
phase-specific fallback is substituted). -/
structure AgentEnv where
  storeFails : Bool := false
  llm : Option String := none
  deriving Repr, DecidableEq

/-- `AsyncConversationDB.get_conversation`: `None` on a store error or a
missing row. -/
def get_conversation (env : AgentEnv) (db : AgentDB) (conversation_id : String) :
    Option ConvRow :=
  if env.storeFails then none else db.convs.lookup conversation_id

/-- `AsyncConversationDB.create_conversation`: inserts a fresh row in
phase `initial`; a duplicate insert hits the UNIQUE constraint, whose
`IntegrityError` is caught and returned as `False` with the store
unchanged; a store error also returns `False`. -/
def create_conversation (env : AgentEnv) (db : AgentDB)
    (conversation_id : String) (now : Nat) : Bool × AgentDB :=
  if env.storeFails then (false, db)
  else if (db.convs.lookup conversation_id).isSome then (false, db)
  else (true,
    { db with convs := db.convs ++
        [(conversation_id,
          { phase := ConversationPhase.INITIAL.value,
            created_at := now, updated_at := now })] })

/-- `AsyncConversationDB.update_conversation_phase`: rewrites `phase` and
`updated_at`. -/
def update_conversation_phase (env : AgentEnv) (db : AgentDB)
    (conversation_id : String) (phase : ConversationPhase) (now : Nat) :
    Bool × AgentDB :=
  if env.storeFails then (false, db)
  else (true,
    { db with convs := db.convs.map (fun p =>
        if p.1 = conversation_id then
          (p.1, { p.2 with phase := phase.value, updated_at := now })
        else p) })

/-- `AsyncConversationDB.add_message`: appends one message row; `False`
on a store error (the agent ignores the returned flag). -/
def add_message (env : AgentEnv) (db : AgentDB) (conversation_id : String)
    (role content : String) (now : Nat) : Bool × AgentDB :=
  if env.storeFails then (false, db)
  else (true, { db with msgs := db.msgs ++
    [(conversation_id, { role, content, timestamp := now })] })

/-- `AsyncConversationDB.get_messages` (ascending, optional limit taken
from the front as in the SQL `LIMIT`); empty on a store error. -/
def get_messages (env : AgentEnv) (db : AgentDB) (conversation_id : String)
    (limit : Option Nat) : List MsgRow :=
  if env.storeFails then []
  else
    let all := (db.msgs.filter (fun p => p.1 == conversation_id)).map (·.2)
    match limit with
    | some n => all.take n
    | none => all

/-- `_get_or_create_conversation`: fetch, create on absence, re-fetch. -/
def get_or_create_conversation (env : AgentEnv) (db : AgentDB)
    (session_id : String) (now : Nat) : Option ConvRow × AgentDB :=
  match get_conversation env db session_id with
  | some c => (some c, db)
  | none =>
      let db1 := (create_conversation env db session_id now).2
      (get_conversation env db1 session_id, db1)

/-- The tool-results dict of a turn. The agent is modeled in its
tools-disabled configuration (`tool_orchestrator is None`), where
`_execute_phase_tools` returns the empty dict on every phase; the `error`
field is the key that `_execute_phase_tools` would set on a caught tool
failure. -/
structure ToolResultsDict where
  error : Option String := none
  deriving Repr, DecidableEq

/-- The response dict of `process_message` /
`_handle_conversation_phase_with_tools`; `none` fields model keys absent
from the error-path dict. -/
structure ResponseData where
  response : String
  phase : ConversationPhase
  phase_transition : Bool
  new_phase : Option ConversationPhase := none
  context : Option ExtractedContext := none
  tool_results : Option ToolResultsDict := none
  session_id : Option String := none
  error : Option String := none
  deriving Repr, DecidableEq

/-- `_get_fallback_response` (the phase-keyed fallback strings of the
source, byte for byte; `\x27` is the apostrophe). -/
def get_fallback_response (phase : ConversationPhase) : String :=
  match phase with
  | .INITIAL => "I\x27m here to help you create an educational music mashup! What kind of music are you interested in exploring?"
  | .GENRE_EXPLORATION => "That\x27s interesting! What other genres would you like to explore or combine?"
  | .EDUCATIONAL_CLARIFICATION => "Great! What music theory concepts would you like to learn about?"
  | .CULTURAL_RESEARCH => "Excellent! Let\x27s explore the cultural context of these genres. What aspects interest you most?"
  | .READY_FOR_GENERATION => "Perfect! Are you ready to create your educational music mashup?"
  | .ERROR => "I\x27m here to help you with your music mashup project!"

/-- `_handle_conversation_phase_with_tools` in the tools-disabled
configuration: empty tool results, history read, LLM call with fallback on
failure, transition decision, response dict. -/
def handle_conversation_phase_with_tools (env : AgentEnv) (db : AgentDB)
    (session_id user_message : String) (current_phase : ConversationPhase)
    (extracted_context : ExtractedContext) : ResponseData :=
  let tool_results : ToolResultsDict := {}
  let _messages := get_messages env db session_id (some 10)
  let ai_response :=
    match env.llm with
    | some s => s
    | none => get_fallback_response current_phase
  let pt := determine_phase_transition current_phase user_message ai_response
    extracted_context
  { response := ai_response
    phase := current_phase
    phase_transition := pt.should_transition
    new_phase := some (if pt.should_transition then pt.new_phase else current_phase)
    context := some extracted_context
    tool_results := some tool_results
    session_id := some session_id }

/-- The generic apology of the `process_message` error path. -/
def apologyText : String :=
  "I apologize, but I encountered an error processing your message. Please try again."

/-- The body of the `try` block of `process_message`. The reachable
exception sources of the model are a store failure (the re-fetched
conversation is `None` and subscripting it raises) and an invalid stored
phase string (`ConversationPhase(...)` raises `ValueError`); everything
after that point recovers locally and returns normally. `now` is the
wall clock, `ts` the extraction timestamp. -/
def process_message_inner (env : AgentEnv) (db : AgentDB)
    (session_id user_message : String) (now : Nat) (ts : String) :
    Except String (ResponseData × AgentDB) :=
  let goc := get_or_create_conversation env db session_id now
  let db1 := goc.2
  match goc.1 with
  | none => .error "NoneType object is not subscriptable"
  | some conv =>
    match phaseOfString conv.phase with
    | none => .error (conv.phase ++ " is not a valid ConversationPhase")
    | some current_phase =>
      let extracted_context := extract_context user_message current_phase ts
      let response_data := handle_conversation_phase_with_tools env db1
        session_id user_message current_phase extracted_context
      let db2 := (add_message env db1 session_id "user" user_message now).2
      let db3 := (add_message env db2 session_id "assistant"
        response_data.response now).2
      let db4 :=
        if response_data.phase_transition then
          (update_conversation_phase env db3 session_id
            (response_data.new_phase.getD current_phase) now).2
        else db3
      .ok (response_data, db4)

/-- `process_message`: the top-level `except Exception` converts any
escaped exception into the apology response with the error text and no
phase transition; the store state is whatever the turn reached (in this
model the error paths precede every write). -/
def process_message (env : AgentEnv) (db : AgentDB)
    (session_id user_message : String) (now : Nat) (ts : String) :
    ResponseData × AgentDB :=
  match process_message_inner env db session_id user_message now ts with
  | .ok r => r
  | .error e =>
      ({ response := apologyText
         phase := .ERROR
         phase_transition := false
         error := some e }, db)

/-! ## Helper lemmas on the extraction pipeline -/

/-- The educational extractor always creates the `theory_concepts` key. -/
theorem extract_context_educational_theory (m ts : String) :
    (extract_context m .EDUCATIONAL_CLARIFICATION ts).theory_concepts =
      some (theory_concept_list.filter (fun c => strContains (strLower m) c)) := rfl

/-- The educational extractor never creates `has_educational_goals`. -/
theorem extract_context_educational_no_goals_key (m ts : String) :
    (extract_context m .EDUCATIONAL_CLARIFICATION ts).has_educational_goals = none := rfl

/-- The cultural extractor always creates the `cultural_elements` key. -/
theorem extract_context_cultural_elements (m ts : String) :
    (extract_context m .CULTURAL_RESEARCH ts).cultural_elements =
      some (cultural_element_list.filter (fun e => strContains (strLower m) e)) := rfl

/-- The genre extractor always creates the `mentioned_genres` key, holding
exactly the matched genres. -/
theorem extract_context_genre_mentioned (m ts : String) :
    (extract_context m .GENRE_EXPLORATION ts).mentioned_genres =
      some (genre_list.filter (fun g => strContains (strLower m) g)) := rfl

/-! ## C1 -/

/-- C1 (counterexample): the claim says the EDUCATIONAL_CLARIFICATION →
CULTURAL_RESEARCH decision fires only when the extracted context holds a
non-empty theory-concepts list or an educational-goals flag, and that
otherwise the phase is kept; but for the message "hello" the extracted
context has `theory_concepts = []` and no educational-goals key, yet the
decision still moves to CULTURAL_RESEARCH (the source tests key presence,
and the extractor always creates the key). The CULTURAL_RESEARCH →
READY_FOR_GENERATION branch fails the claim the same way. -/
theorem educational_clarification_transitions_on_empty_concepts :
    (extract_context "hello" .EDUCATIONAL_CLARIFICATION "t0").theory_concepts = some []
    ∧ (extract_context "hello" .EDUCATIONAL_CLARIFICATION "t0").has_educational_goals = none
    ∧ determine_phase_transition .EDUCATIONAL_CLARIFICATION "hello" "ok"
        (extract_context "hello" .EDUCATIONAL_CLARIFICATION "t0") =
        { should_transition := true, new_phase := .CULTURAL_RESEARCH }
    ∧ (extract_context "hello" .CULTURAL_RESEARCH "t0").cultural_elements = some []
    ∧ (extract_context "hello" .CULTURAL_RESEARCH "t0").mentioned_genres = none
    ∧ determine_phase_transition .CULTURAL_RESEARCH "hello" "ok"
        (extract_context "hello" .CULTURAL_RESEARCH "t0") =
        { should_transition := true, new_phase := .READY_FOR_GENERATION } :=
  ⟨rfl, rfl, rfl, rfl, rfl, rfl⟩

/-- C1 (amended): in EDUCATIONAL_CLARIFICATION the decision moves to
CULTURAL_RESEARCH exactly when the extracted context *contains the key*
`theory_concepts` or the key `has_educational_goals`, regardless of the
lists being empty; in CULTURAL_RESEARCH it moves to READY_FOR_GENERATION
exactly when the key `cultural_elements` or `mentioned_genres` is present;
only when neither key is present does the conversation keep its phase.
Because the phase extractors always create `theory_concepts` resp.
`cultural_elements`, every message processed in these two phases
transitions. -/
theorem transition_key_presence_characterization :
    ∀ (m a ts : String) (ctx : ExtractedContext),
      determine_phase_transition .EDUCATIONAL_CLARIFICATION m a ctx =
        (if ctx.theory_concepts.isSome || ctx.has_educational_goals.isSome then
          { should_transition := true, new_phase := .CULTURAL_RESEARCH }
         else { should_transition := false, new_phase := .EDUCATIONAL_CLARIFICATION })
      ∧ determine_phase_transition .CULTURAL_RESEARCH m a ctx =
        (if ctx.cultural_elements.isSome || ctx.mentioned_genres.isSome then
          { should_transition := true, new_phase := .READY_FOR_GENERATION }
         else { should_transition := false, new_phase := .CULTURAL_RESEARCH })
      ∧ determine_phase_transition .EDUCATIONAL_CLARIFICATION m a
          (extract_context m .EDUCATIONAL_CLARIFICATION ts) =
          { should_transition := true, new_phase := .CULTURAL_RESEARCH }
      ∧ determine_phase_transition .CULTURAL_RESEARCH m a
          (extract_context m .CULTURAL_RESEARCH ts) =
          { should_transition := true, new_phase := .READY_FOR_GENERATION } := by
  intro m a ts ctx
  refine ⟨rfl, rfl, ?_, ?_⟩
  · simp [determine_phase_transition, extract_context_educational_theory]
  · simp [determine_phase_transition, extract_context_cultural_elements]

/-! ## C9 -/

/-- C9: in GENRE_EXPLORATION the decision moves to
EDUCATIONAL_CLARIFICATION exactly when the extracted context contains a
non-empty mentioned-genres list (the source checks list truthiness here);
through the extraction pipeline this is exactly "the message names at
least one known genre"; and an extracted context with
`mentioned_genres = []` yields no transition. -/
theorem genre_exploration_transition_iff_nonempty_genres :
    ∀ (m a ts : String) (ctx : ExtractedContext),
      determine_phase_transition .GENRE_EXPLORATION m a ctx =
        (if truthyListKey ctx.mentioned_genres then
          { should_transition := true, new_phase := .EDUCATIONAL_CLARIFICATION }
         else { should_transition := false, new_phase := .GENRE_EXPLORATION })
      ∧ ((determine_phase_transition .GENRE_EXPLORATION m a ctx).should_transition = true
          ↔ ∃ l, ctx.mentioned_genres = some l ∧ l ≠ [])
      ∧ ((determine_phase_transition .GENRE_EXPLORATION m a
            (extract_context m .GENRE_EXPLORATION ts)).should_transition
          = !(genre_list.filter (fun g => strContains (strLower m) g)).isEmpty)
      ∧ determine_phase_transition .GENRE_EXPLORATION m a
          { mentioned_genres := some [] } =
          { should_transition := false, new_phase := .GENRE_EXPLORATION } := by
  intro m a ts ctx
  have e : ∀ c : ExtractedContext, determine_phase_transition .GENRE_EXPLORATION m a c =
      if truthyListKey c.mentioned_genres then
        { should_transition := true, new_phase := .EDUCATIONAL_CLARIFICATION }
      else { should_transition := false, new_phase := .GENRE_EXPLORATION } :=
    fun _ => rfl
  refine ⟨rfl, ?_, ?_, rfl⟩
  · rw [e]
    cases h : ctx.mentioned_genres with
    | none => simp [h, truthyListKey]
    | some l =>
        cases l with
        | nil => simp [truthyListKey]
        | cons x xs => simp [truthyListKey]
  · rw [e, extract_context_genre_mentioned]
    cases hL : (genre_list.filter (fun g => strContains (strLower m) g)).isEmpty <;>
      simp [truthyListKey, hL]

/-! ## C6 -/

/-- C6: whenever the body of `process_message` raises (modeled by
`process_message_inner` returning `error e`), the top-level handler
returns the generic apology with `phase_transition = false`, the error
text in the `error` field, the agent error phase, and the store as the
turn left it — `process_message` itself is a total function and never
propagates the exception. -/
theorem process_message_error_path :
    ∀ (env : AgentEnv) (db : AgentDB) (sid msg : String) (now : Nat) (ts e : String),
      process_message_inner env db sid msg now ts = .error e →
      process_message env db sid msg now ts =
        ({ response := apologyText, phase := .ERROR, phase_transition := false,
           error := some e }, db) := by
  intro env db sid msg now ts e h
  simp [process_message, h]

/-- C6 witness: a store failure makes the inner body raise
(`None['phase']`), and the turn returns the apology response. -/
theorem process_message_error_path_witness :
    process_message_inner { storeFails := true } {} "s1" "hi" 0 "t0" =
      .error "NoneType object is not subscriptable"
    ∧ process_message { storeFails := true } {} "s1" "hi" 0 "t0" =
      ({ response := apologyText, phase := .ERROR, phase_transition := false,
         error := some "NoneType object is not subscriptable" }, {}) :=
  ⟨rfl, process_message_error_path { storeFails := true } {} "s1" "hi" 0 "t0"
    "NoneType object is not subscriptable" rfl⟩

/-! ## C7 -/

/-- Association lookup distributes over append. -/
theorem lookup_append_pair {α β : Type} [BEq α] (l1 l2 : List (α × β)) (a : α) :
    (l1 ++ l2).lookup a =
      match l1.lookup a with
      | some v => some v
      | none => l2.lookup a := by
  induction l1 with
  | nil => simp [List.lookup]
  | cons p tl ih =>
      obtain ⟨k, v⟩ := p
      by_cases hk : a == k
      · simp [List.lookup, hk]
      · simp only [Bool.not_eq_true] at hk
        simp [List.lookup, hk, ih]

/-- A key that `lookup` misses filters to nothing. -/
theorem filter_key_nil_of_lookup_none (l : List (String × ConvRow)) (a : String)
    (h : l.lookup a = none) : l.filter (fun p => p.1 == a) = [] := by
  induction l with
  | nil => rfl
  | cons p tl ih =>
      obtain ⟨k, v⟩ := p
      by_cases hk : a == k
      · rw [List.lookup] at h
        rw [hk] at h
        exact absurd h (by simp)
      · simp only [Bool.not_eq_true] at hk
        rw [List.lookup] at h
        rw [hk] at h
        have hk2 : (k == a) = false := by
          simp only [beq_eq_false_iff_ne] at hk ⊢
          exact fun hy => hk hy.symm
        simp [List.filter_cons, hk2, ih h]

/-- C7: for a session id with no stored conversation, load-or-create
stores exactly one conversation, in phase `initial`; running
load-or-create again returns the very same row and store (so the
timestamps of the first creation are untouched); and a duplicate direct
create attempt is not an error — it returns `False` and leaves the store
unchanged (the source catches the UNIQUE-constraint `IntegrityError`),
after which the caller fetches the existing row. -/
theorem conversation_creation_idempotent :
    ∀ (env : AgentEnv) (db : AgentDB) (sid : String) (now1 now2 : Nat),
      env.storeFails = false →
      db.convs.lookup sid = none →
      ((get_or_create_conversation env db sid now1).2.convs.filter
          (fun p => p.1 == sid)).length = 1
      ∧ (get_or_create_conversation env db sid now1).1 =
          some { phase := "initial", created_at := now1, updated_at := now1 }
      ∧ get_or_create_conversation env
          (get_or_create_conversation env db sid now1).2 sid now2 =
          ((get_or_create_conversation env db sid now1).1,
           (get_or_create_conversation env db sid now1).2)
      ∧ create_conversation env (get_or_create_conversation env db sid now1).2 sid now2 =
          (false, (get_or_create_conversation env db sid now1).2) := by
  intro env db sid now1 now2 hs hl
  have hget : get_conversation env db sid = none := by
    simp [get_conversation, hs, hl]
  have hcr : create_conversation env db sid now1 =
      (true, { db with convs := db.convs ++
        [(sid, { phase := "initial", created_at := now1, updated_at := now1 })] }) := by
    simp [create_conversation, hs, hl, ConversationPhase.value]
  have hlup : (db.convs ++
      [(sid, ({ phase := "initial", created_at := now1, updated_at := now1 } : ConvRow))]).lookup sid =
      some { phase := "initial", created_at := now1, updated_at := now1 } := by
    rw [lookup_append_pair, hl]
    simp [List.lookup]
  have hgoc : get_or_create_conversation env db sid now1 =
      (some { phase := "initial", created_at := now1, updated_at := now1 },
       { db with convs := db.convs ++
          [(sid, { phase := "initial", created_at := now1, updated_at := now1 })] }) := by
    simp [get_or_create_conversation, hget, hcr, get_conversation, hs, hl, hlup]
  refine ⟨?_, ?_, ?_, ?_⟩
  · rw [hgoc]
    simp only [List.filter_append, filter_key_nil_of_lookup_none db.convs sid hl]
    simp [List.filter]
  · rw [hgoc]
  · rw [hgoc]
    simp [get_or_create_conversation, get_conversation, hs, hlup]
  · rw [hgoc]
    simp [create_conversation, hs, hlup]

/-- C7 witness at a fresh store. -/
theorem conversation_creation_idempotent_witness :
    ({} : AgentEnv).storeFails = false
    ∧ (({} : AgentDB)).convs.lookup "s1" = none
    ∧ (((get_or_create_conversation {} {} "s1" 0).2.convs.filter
          (fun p => p.1 == "s1")).length = 1
       ∧ (get_or_create_conversation {} {} "s1" 0).1 =
          some { phase := "initial", created_at := 0, updated_at := 0 }
       ∧ get_or_create_conversation {}
          (get_or_create_conversation {} {} "s1" 0).2 "s1" 1 =
          ((get_or_create_conversation {} {} "s1" 0).1,
           (get_or_create_conversation {} {} "s1" 0).2)
       ∧ create_conversation {} (get_or_create_conversation {} {} "s1" 0).2 "s1" 1 =
          (false, (get_or_create_conversation {} {} "s1" 0).2)) :=
  ⟨rfl, rfl, conversation_creation_idempotent {} {} "s1" 0 1 rfl rfl⟩

/-! ## Helper lemmas on the tool-call store -/

/-- Status of the row a given id resolves to. -/
def rowStatus (db : ToolDB) (id : Nat) : Option String :=
  (db.find id).map (·.status)

/-- Updating a row rewrites the row every lookup of that id resolves to. -/
theorem lookup_map_upd (id : Nat) (out : Option String) (st : String)
    (em : Option String) (now : Nat) :
    ∀ rows : List (Nat × ToolCallRow),
      (rows.map (fun p =>
          if p.1 = id then (p.1, applyUpdate out st em now p.2) else p)).lookup id
      = (rows.lookup id).map (applyUpdate out st em now) := by
  intro rows
  induction rows with
  | nil => rfl
  | cons p tl ih =>
      obtain ⟨k, v⟩ := p
      simp only [List.map_cons]
      by_cases hk : k = id
      · subst hk
        rw [if_pos rfl]
        simp [List.lookup, ih]
      · rw [if_neg hk]
        have hbk : (id == k) = false := by
          simp only [beq_eq_false_iff_ne]
          exact fun hy => hk hy.symm
        simp [List.lookup, hbk, ih]

/-- `ToolDB.updateToolCall` through `ToolDB.find`. -/
theorem find_updateToolCall (db : ToolDB) (id : Nat) (out : Option String)
    (st : String) (em : Option String) (now : Nat) :
    (db.updateToolCall id out st em now).find id
      = (db.find id).map (applyUpdate out st em now) := by
  simp only [ToolDB.updateToolCall, ToolDB.find]
  exact lookup_map_upd id out st em now db.rows

/-- `add_tool_call` returns the fresh row id. -/
theorem addToolCall_fst (db : ToolDB) (cid : String) (tt : ToolCallType)
    (inp : String) (out : Option String) (st : String) (em : Option String)
    (now : Nat) :
    (db.addToolCall cid tt inp out st em now).1 = db.nextId := rfl

/-- The row inserted by `ToolDB.addToolCall` is found afterwards. -/
theorem find_addToolCall_isSome (db : ToolDB) (cid : String) (tt : ToolCallType)
    (inp : String) (out : Option String) (st : String) (em : Option String)
    (now : Nat) :
    (((db.addToolCall cid tt inp out st em now).2.find db.nextId)).isSome = true := by
  simp only [ToolDB.addToolCall, ToolDB.find]
  rw [lookup_append_pair]
  cases h : db.rows.lookup db.nextId with
  | some v => simp
  | none => simp [List.lookup]

/-- Updating a found row makes `rowStatus` the new status. -/
theorem rowStatus_update_of_isSome (db : ToolDB) (id : Nat) (out : Option String)
    (st : String) (em : Option String) (now : Nat)
    (h : (db.find id).isSome = true) :
    rowStatus (db.updateToolCall id out st em now) id = some st := by
  unfold rowStatus
  rw [find_updateToolCall]
  obtain ⟨r, hr⟩ := Option.isSome_iff_exists.mp h
  rw [hr]
  rfl

/-! ## C2 -/

/-- C2 (counterexample): the claim says the tracking row is written with
status PENDING before the search executes; in the concrete execution
below the only insert event carries status "running" — the source calls
`add_tool_call(..., status="running")` — so no PENDING row is ever
written. -/
theorem tool_call_row_written_running_not_pending :
    (execute_web_search {} "jazz history" (some "conv1")
        (.returns { results := some [] }) {} 0 1).2.2 =
      [.dbAdd 1 "running", .searchExec, .dbUpdate 1 "completed"]
    ∧ ("running" : String) ≠ "pending"
    ∧ (∀ e ∈ (execute_web_search {} "jazz history" (some "conv1")
        (.returns { results := some [] }) {} 0 1).2.2,
        e ≠ OrchEvent.dbAdd 1 "pending") := by
  refine ⟨rfl, by decide, ?_⟩
  intro e he
  fin_cases he <;> simp

/-- C2 (amended): when a store is configured and a conversation id is
given, every call writes the tracking row with status "running" (not
PENDING) before the search executes, and on every outcome — success,
search error, timeout, outer exception — updates that same row to a
terminal status before returning; no path leaves the row in its initial
non-terminal state. -/
theorem tool_call_row_lifecycle :
    ∀ (o : Orchestrator) (q c : String) (b : SearchBehavior) (db : ToolDB)
      (now elapsed : Nat),
      o.hasDb = true →
      ∃ st : String,
        (execute_web_search o q (some c) b db now elapsed).2.2 =
          [.dbAdd db.nextId "running", .searchExec, .dbUpdate db.nextId st]
        ∧ (st = "completed" ∨ st = "failed" ∨ st = "timeout")
        ∧ rowStatus (execute_web_search o q (some c) b db now elapsed).2.1
            db.nextId = some st
        ∧ (execute_web_search o q (some c) b db now elapsed).1.status.isTerminal
            = true := by
  intro o q c b db now elapsed hdb
  have hfound := find_addToolCall_isSome db c .WEB_SEARCH q none "running" none now
  cases b with
  | timesOut =>
      refine ⟨"timeout", ?_, by simp, ?_, rfl⟩
      · simp [execute_web_search, maybeUpdate, hdb, addToolCall_fst]
      · simp only [execute_web_search, maybeUpdate, hdb, addToolCall_fst]
        simpa [addToolCall_fst] using rowStatus_update_of_isSome _ _ _ _ _ _ hfound
  | outerRaises m =>
      refine ⟨"failed", ?_, by simp, ?_, rfl⟩
      · simp [execute_web_search, maybeUpdate, hdb, addToolCall_fst]
      · simp only [execute_web_search, maybeUpdate, hdb, addToolCall_fst]
        simpa [addToolCall_fst] using rowStatus_update_of_isSome _ _ _ _ _ _ hfound
  | returns resp =>
      by_cases herr : errorTruthy
          (execute_search_with_error_handling o.hasWebSearchService q (.ok resp)).error
      · refine ⟨"failed", ?_, by simp, ?_, ?_⟩
        · simp [execute_web_search, maybeUpdate, hdb, herr, addToolCall_fst,
            ToolExecutionStatus.value]
        · simp only [execute_web_search, maybeUpdate, hdb, herr, if_true,
            addToolCall_fst, ToolExecutionStatus.value]
          simpa [herr, addToolCall_fst] using
            rowStatus_update_of_isSome _ _ _ _ _ _ hfound
        · simp [execute_web_search, herr, ToolExecutionStatus.isTerminal]
      · refine ⟨"completed", ?_, by simp, ?_, ?_⟩
        · simp [execute_web_search, maybeUpdate, hdb, herr, addToolCall_fst,
            ToolExecutionStatus.value]
        · simp only [execute_web_search, maybeUpdate, hdb, herr,
            addToolCall_fst, ToolExecutionStatus.value]
          simpa [herr, addToolCall_fst] using
            rowStatus_update_of_isSome _ _ _ _ _ _ hfound
        · simp [execute_web_search, herr, ToolExecutionStatus.isTerminal]
  | raises m =>
      by_cases herr : errorTruthy
          (execute_search_with_error_handling o.hasWebSearchService q (.error m)).error
      · refine ⟨"failed", ?_, by simp, ?_, ?_⟩
        · simp [execute_web_search, maybeUpdate, hdb, herr, addToolCall_fst,
            ToolExecutionStatus.value]
        · simp only [execute_web_search, maybeUpdate, hdb, herr, if_true,
            addToolCall_fst, ToolExecutionStatus.value]
          simpa [herr, addToolCall_fst] using
            rowStatus_update_of_isSome _ _ _ _ _ _ hfound
        · simp [execute_web_search, herr, ToolExecutionStatus.isTerminal]
      · refine ⟨"completed", ?_, by simp, ?_, ?_⟩
        · simp [execute_web_search, maybeUpdate, hdb, herr, addToolCall_fst,
            ToolExecutionStatus.value]
        · simp only [execute_web_search, maybeUpdate, hdb, herr,
            addToolCall_fst, ToolExecutionStatus.value]
          simpa [herr, addToolCall_fst] using
            rowStatus_update_of_isSome _ _ _ _ _ _ hfound
        · simp [execute_web_search, herr, ToolExecutionStatus.isTerminal]

/-- C2 witness: the amended lifecycle at a concrete timed-out call. -/
theorem tool_call_row_lifecycle_witness :
    ({} : Orchestrator).hasDb = true
    ∧ ∃ st : String,
        (execute_web_search {} "q1" (some "conv1") .timesOut {} 0 1).2.2 =
          [.dbAdd 1 "running", .searchExec, .dbUpdate 1 st]
        ∧ (st = "completed" ∨ st = "failed" ∨ st = "timeout")
        ∧ rowStatus (execute_web_search {} "q1" (some "conv1") .timesOut {} 0 1).2.1 1
            = some st
        ∧ (execute_web_search {} "q1" (some "conv1") .timesOut {} 0 1).1.status.isTerminal
            = true :=
  ⟨rfl, tool_call_row_lifecycle {} "q1" "conv1" .timesOut {} 0 1 rfl⟩

/-! ## C3 -/

/-- C3 (counterexample): the claim says a raising SearchCapability always
yields FAILED with the exception text; but an exception whose text is
empty produces a response whose error field is the empty string, which is
falsy in the `has_error` check, so the call returns COMPLETED with no
error message. -/
theorem empty_exception_text_yields_completed :
    (execute_web_search {} "jazz history" none (.raises "") {} 0 1).1.status
      = .COMPLETED
    ∧ (execute_web_search {} "jazz history" none (.raises "") {} 0 1).1.status
      ≠ .FAILED
    ∧ (execute_web_search {} "jazz history" none (.raises "") {} 0 1).1.error_message
      = none := ⟨rfl, by decide, rfl⟩

/-- C3 (amended): `execute_search` is a total function of the behavior
(it never raises), always returns a terminal status, and maps each
behavior as the source does: timeout → TIMEOUT with the descriptive
message; exception with non-empty text m → FAILED with error m (empty
text is indistinguishable from an absent error field and yields
COMPLETED); response with truthy (non-empty) error field → FAILED
carrying that field; response without one → COMPLETED; an exception
reaching the outer handler → FAILED with its text prefixed by
"Web search failed: ". -/
theorem execute_web_search_status_mapping :
    ∀ (o : Orchestrator) (q : String) (cid : Option String) (b : SearchBehavior)
      (db : ToolDB) (now elapsed : Nat),
      o.hasWebSearchService = true →
      ((execute_web_search o q cid b db now elapsed).1.status.isTerminal = true
       ∧ (execute_web_search o q cid .timesOut db now elapsed).1.status = .TIMEOUT
       ∧ (execute_web_search o q cid .timesOut db now elapsed).1.error_message
           = some (timeoutMessage o)
       ∧ (∀ m, (execute_web_search o q cid (.raises m) db now elapsed).1.status
           = (if m.isEmpty then .COMPLETED else .FAILED))
       ∧ (∀ m, (execute_web_search o q cid (.raises m) db now elapsed).1.error_message
           = (if m.isEmpty then none else some m))
       ∧ (∀ resp, (execute_web_search o q cid (.returns resp) db now elapsed).1.status
           = (if errorTruthy resp.error then .FAILED else .COMPLETED))
       ∧ (∀ resp,
           (execute_web_search o q cid (.returns resp) db now elapsed).1.error_message
           = (if errorTruthy resp.error then resp.error else none))
       ∧ (∀ m, (execute_web_search o q cid (.outerRaises m) db now elapsed).1.status
             = .FAILED
           ∧ (execute_web_search o q cid (.outerRaises m) db now elapsed).1.error_message
             = some ("Web search failed: " ++ m))) := by
  intro o q cid b db now elapsed hs
  refine ⟨?_, rfl, rfl, ?_, ?_, ?_, ?_, fun m => ⟨rfl, rfl⟩⟩
  · cases b with
    | timesOut => rfl
    | outerRaises m => rfl
    | returns resp =>
        by_cases herr : errorTruthy
            (execute_search_with_error_handling o.hasWebSearchService q (.ok resp)).error
        · simp [execute_web_search, herr, ToolExecutionStatus.isTerminal]
        · simp [execute_web_search, herr, ToolExecutionStatus.isTerminal]
    | raises m =>
        by_cases herr : errorTruthy
            (execute_search_with_error_handling o.hasWebSearchService q (.error m)).error
        · simp [execute_web_search, herr, ToolExecutionStatus.isTerminal]
        · simp [execute_web_search, herr, ToolExecutionStatus.isTerminal]
  · intro m
    have hr : execute_search_with_error_handling o.hasWebSearchService q (.error m)
        = exceptionResponse q m := by
      simp [execute_search_with_error_handling, hs]
    by_cases hm : m.isEmpty
    · simp [execute_web_search, hr, exceptionResponse, errorTruthy, hm]
    · simp [execute_web_search, hr, exceptionResponse, errorTruthy, hm]
  · intro m
    have hr : execute_search_with_error_handling o.hasWebSearchService q (.error m)
        = exceptionResponse q m := by
      simp [execute_search_with_error_handling, hs]
    by_cases hm : m.isEmpty
    · simp [execute_web_search, hr, exceptionResponse, errorTruthy, hm]
    · simp [execute_web_search, hr, exceptionResponse, errorTruthy, hm]
  · intro resp
    have hr : execute_search_with_error_handling o.hasWebSearchService q (.ok resp)
        = resp := by
      simp [execute_search_with_error_handling, hs]
    by_cases herr : errorTruthy resp.error
    · simp [execute_web_search, hr, herr]
    · simp [execute_web_search, hr, herr]
  · intro resp
    have hr : execute_search_with_error_handling o.hasWebSearchService q (.ok resp)
        = resp := by
      simp [execute_search_with_error_handling, hs]
    by_cases herr : errorTruthy resp.error
    · simp [execute_web_search, hr, herr]
    · simp [execute_web_search, hr, herr]

/-- C3 witness at the default configuration. -/
theorem execute_web_search_status_mapping_witness :
    ({} : Orchestrator).hasWebSearchService = true
    ∧ ((execute_web_search {} "q" none .timesOut {} 0 1).1.status.isTerminal = true
       ∧ (execute_web_search {} "q" none .timesOut {} 0 1).1.status = .TIMEOUT
       ∧ (execute_web_search {} "q" none .timesOut {} 0 1).1.error_message
           = some (timeoutMessage {})
       ∧ (∀ m, (execute_web_search {} "q" none (.raises m) {} 0 1).1.status
           = (if m.isEmpty then .COMPLETED else .FAILED))
       ∧ (∀ m, (execute_web_search {} "q" none (.raises m) {} 0 1).1.error_message
           = (if m.isEmpty then none else some m))
       ∧ (∀ resp, (execute_web_search {} "q" none (.returns resp) {} 0 1).1.status
           = (if errorTruthy resp.error then .FAILED else .COMPLETED))
       ∧ (∀ resp,
           (execute_web_search {} "q" none (.returns resp) {} 0 1).1.error_message
           = (if errorTruthy resp.error then resp.error else none))
       ∧ (∀ m, (execute_web_search {} "q" none (.outerRaises m) {} 0 1).1.status
             = .FAILED
           ∧ (execute_web_search {} "q" none (.outerRaises m) {} 0 1).1.error_message
             = some ("Web search failed: " ++ m))) :=
  ⟨rfl, execute_web_search_status_mapping {} "q" none .timesOut {} 0 1 rfl⟩

/-! ## C8 -/

/-- C8: the returned `execution_time` is present exactly when the awaited
search region ran to completion (the service returned, raised inside the
wrapper, or was absent — in each of those the measurement happens); on
timeout and on an outer exception no execution time is recorded. -/
theorem execution_time_only_on_completed_run :
    ∀ (o : Orchestrator) (q : String) (cid : Option String) (b : SearchBehavior)
      (db : ToolDB) (now elapsed : Nat),
      ((execute_web_search o q cid b db now elapsed).1.execution_time.isSome
         = b.ranToCompletion)
      ∧ (execute_web_search o q cid .timesOut db now elapsed).1.execution_time = none := by
  intro o q cid b db now elapsed
  refine ⟨?_, rfl⟩
  cases b <;> rfl

/-! ## C4 -/

/-- The `ToolCallResult` returned by one search depends only on the
query, configuration and behavior — never on the store state or the wall
clock; this is what makes the gathered results independent of the
interleaving of the concurrent store writes. -/
theorem execute_web_search_fst_const (o : Orchestrator) (q : String)
    (cid : Option String) (b : SearchBehavior) (db db2 : ToolDB)
    (now now2 elapsed : Nat) :
    (execute_web_search o q cid b db now elapsed).1 =
    (execute_web_search o q cid b db2 now2 elapsed).1 := by
  cases b <;> rfl

/-- The returned result always echoes its query in `input_data`. -/
theorem execute_web_search_fst_input (o : Orchestrator) (q : String)
    (cid : Option String) (b : SearchBehavior) (db : ToolDB)
    (now elapsed : Nat) :
    (execute_web_search o q cid b db now elapsed).1.input_data = q := by
  cases b <;> rfl

/-- The per-index result function of the fan-out. -/
def fanOutResult (o : Orchestrator) (cid : Option String) (now : Nat)
    (p : String × TaskOutcome) : ToolCallResult :=
  match p.2 with
  | .escapes msg => escapedResult p.1 msg
  | .runs b elapsed => (execute_web_search o p.1 cid b {} now elapsed).1

/-- The gathered result list is the index-wise image of the outcomes,
independent of the store threading. -/
theorem concurrentGo_results (o : Orchestrator) (cid : Option String) (now : Nat) :
    ∀ (l : List (String × TaskOutcome)) (db : ToolDB),
      (concurrentGo o cid now l db).1 = l.map (fanOutResult o cid now) := by
  intro l
  induction l with
  | nil => intro db; rfl
  | cons p tl ih =>
      intro db
      obtain ⟨q, t⟩ := p
      cases t with
      | escapes msg => simp [concurrentGo, ih, fanOutResult]
      | runs b elapsed =>
          simp only [concurrentGo, List.map_cons, fanOutResult]
          rw [ih]
          exact congrArg (fun r => r :: tl.map (fanOutResult o cid now))
            (execute_web_search_fst_const o q cid b db {} now now elapsed)

/-- C4: with one outcome per query, the result list of
`execute_concurrent_searches` has the length of the query list and is
index-aligned: position i echoes query i; an exception escaping task i is
converted into a FAILED result carrying its text at position i while
every other position is the ordinary `execute_search` result for its own
query and behavior; and an empty query list yields the empty result
list. -/
theorem execute_concurrent_index_aligned :
    ∀ (o : Orchestrator) (queries : List String) (cid : Option String)
      (outcomes : List TaskOutcome) (db : ToolDB) (now : Nat),
      outcomes.length = queries.length →
      ((execute_concurrent_searches o queries cid outcomes db now).1.length
          = queries.length
       ∧ (∀ (i : Nat) (hq : i < queries.length)
            (hr : i < (execute_concurrent_searches o queries cid outcomes db now).1.length)
            (ho : i < outcomes.length),
            ((execute_concurrent_searches o queries cid outcomes db now).1.get
                ⟨i, hr⟩).input_data = queries.get ⟨i, hq⟩
            ∧ (∀ msg, outcomes.get ⟨i, ho⟩ = .escapes msg →
                (execute_concurrent_searches o queries cid outcomes db now).1.get ⟨i, hr⟩
                  = escapedResult (queries.get ⟨i, hq⟩) msg)
            ∧ (∀ b elapsed, outcomes.get ⟨i, ho⟩ = .runs b elapsed →
                (execute_concurrent_searches o queries cid outcomes db now).1.get ⟨i, hr⟩
                  = (execute_web_search o (queries.get ⟨i, hq⟩) cid b db now elapsed).1))
       ∧ (queries = [] →
            (execute_concurrent_searches o queries cid outcomes db now).1 = [])) := by
  intro o queries cid outcomes db now hlen
  have hres : (execute_concurrent_searches o queries cid outcomes db now).1 =
      (queries.zip outcomes).map (fanOutResult o cid now) := by
    cases queries with
    | nil =>
        cases outcomes with
        | nil => rfl
        | cons x xs => simp at hlen
    | cons q qs =>
        exact concurrentGo_results o cid now ((q :: qs).zip outcomes) db
  have hzlen : (queries.zip outcomes).length = queries.length := by
    simp [List.length_zip, hlen]
  refine ⟨?_, ?_, ?_⟩
  · rw [hres, List.length_map, hzlen]
  · intro i hq hr ho
    have hi2 : i < ((queries.zip outcomes).map (fanOutResult o cid now)).length := by
      rw [List.length_map, hzlen]; exact hq
    have hget : (execute_concurrent_searches o queries cid outcomes db now).1.get ⟨i, hr⟩
        = fanOutResult o cid now (queries.get ⟨i, hq⟩, outcomes.get ⟨i, ho⟩) := by
      have h1 := List.get_of_eq hres ⟨i, hr⟩
      rw [h1]
      simp [List.get_eq_getElem, List.getElem_map, List.getElem_zip]
    refine ⟨?_, ?_, ?_⟩
    · rw [hget]
      cases ht : outcomes.get ⟨i, ho⟩ with
      | escapes msg => simp [fanOutResult, ht, escapedResult]
      | runs b elapsed =>
          simp only [fanOutResult, ht]
          exact execute_web_search_fst_input o _ cid b {} now elapsed
    · intro msg hmsg
      rw [hget, hmsg]
      rfl
    · intro b elapsed hb
      rw [hget, hb]
      exact execute_web_search_fst_const o _ cid b {} db now now elapsed
  · intro hq
    subst hq
    cases outcomes with
    | nil => rfl
    | cons x xs => simp at hlen

/-- Concrete query list for the fan-out witness. -/
def c4_queries : List String := ["a", "b", "c"]

/-- Concrete per-task outcomes for the fan-out witness: a normal return,
an escaped exception, and a timeout. -/
def c4_outcomes : List TaskOutcome :=
  [.runs (.returns { results := some [] }) 1, .escapes "boom", .runs .timesOut 2]

/-- C4 witness: three queries with mixed outcomes. -/
theorem execute_concurrent_index_aligned_witness :
    c4_outcomes.length = c4_queries.length
    ∧ ((execute_concurrent_searches {} c4_queries none c4_outcomes {} 0).1.length
          = c4_queries.length
       ∧ (∀ (i : Nat) (hq : i < c4_queries.length)
            (hr : i < (execute_concurrent_searches {} c4_queries none c4_outcomes {} 0).1.length)
            (ho : i < c4_outcomes.length),
            ((execute_concurrent_searches {} c4_queries none c4_outcomes {} 0).1.get
                ⟨i, hr⟩).input_data = c4_queries.get ⟨i, hq⟩
            ∧ (∀ msg, c4_outcomes.get ⟨i, ho⟩ = .escapes msg →
                (execute_concurrent_searches {} c4_queries none c4_outcomes {} 0).1.get ⟨i, hr⟩
                  = escapedResult (c4_queries.get ⟨i, hq⟩) msg)
            ∧ (∀ b elapsed, c4_outcomes.get ⟨i, ho⟩ = .runs b elapsed →
                (execute_concurrent_searches {} c4_queries none c4_outcomes {} 0).1.get ⟨i, hr⟩
                  = (execute_web_search {} (c4_queries.get ⟨i, hq⟩) none b {} 0 elapsed).1))
       ∧ (c4_queries = [] →
            (execute_concurrent_searches {} c4_queries none c4_outcomes {} 0).1 = [])) :=
  ⟨rfl, execute_concurrent_index_aligned {} c4_queries none c4_outcomes {} 0 rfl⟩

/-! ## Helper lemmas on URL deduplication -/

/-- Every kept entry comes from the input and carries a `url` key. -/
theorem mem_dedupByUrl :
    ∀ (l : List RawEntry) (seen : List String) (e : RawEntry),
      e ∈ dedupByUrl l seen → e ∈ l ∧ e.url.isSome = true := by
  intro l
  induction l with
  | nil => intro seen e he; simp [dedupByUrl] at he
  | cons a rest ih =>
      intro seen e he
      cases hu : a.url with
      | none =>
          simp only [dedupByUrl, hu] at he
          have := ih seen e he
          exact ⟨List.mem_cons_of_mem a this.1, this.2⟩
      | some u =>
          simp only [dedupByUrl, hu] at he
          by_cases hc : seen.contains u
          · rw [if_pos hc] at he
            have := ih seen e he
            exact ⟨List.mem_cons_of_mem a this.1, this.2⟩
          · rw [if_neg hc] at he
            rcases List.mem_cons.mp he with rfl | hrest
            · exact ⟨List.mem_cons_self _ _, by rw [hu]; rfl⟩
            · have := ih (u :: seen) e hrest
              exact ⟨List.mem_cons_of_mem a this.1, this.2⟩

/-- The deduplicated list is a sublist of the input (stable order). -/
theorem dedupByUrl_sublist :
    ∀ (l : List RawEntry) (seen : List String),
      List.Sublist (dedupByUrl l seen) l := by
  intro l
  induction l with
  | nil => intro seen; simp [dedupByUrl]
  | cons a rest ih =>
      intro seen
      cases hu : a.url with
      | none =>
          simp only [dedupByUrl, hu]
          exact (ih seen).cons a
      | some u =>
          simp only [dedupByUrl, hu]
          by_cases hc : seen.contains u
          · rw [if_pos hc]
            exact (ih seen).cons a
          · rw [if_neg hc]
            exact (ih (u :: seen)).cons₂ a

/-- A URL survives deduplication exactly when it occurs in the input and
was not already seen. -/
theorem mem_urls_dedupByUrl :
    ∀ (l : List RawEntry) (seen : List String) (u : String),
      u ∈ (dedupByUrl l seen).filterMap RawEntry.url
      ↔ (u ∈ l.filterMap RawEntry.url ∧ u ∉ seen) := by
  intro l
  induction l with
  | nil => intro seen u; simp [dedupByUrl]
  | cons a rest ih =>
      intro seen u
      cases hu : a.url with
      | none =>
          simp only [dedupByUrl, hu]
          simp only [List.filterMap_cons, hu]
          exact ih seen u
      | some u0 =>
          simp only [dedupByUrl, hu]
          by_cases hc : seen.contains u0
          · rw [if_pos hc]
            have hc2 : u0 ∈ seen := by simpa using hc
            simp only [List.filterMap_cons, hu, List.mem_cons, ih]
            constructor
            · intro ⟨h1, h2⟩
              exact ⟨Or.inr h1, h2⟩
            · rintro ⟨h1 | h1, h2⟩
              · subst h1; exact absurd hc2 h2
              · exact ⟨h1, h2⟩
          · rw [if_neg hc]
            have hc2 : u0 ∉ seen := by simpa using hc
            simp only [List.filterMap_cons, hu, List.mem_cons, ih]
            constructor
            · rintro (rfl | ⟨h1, h2⟩)
              · exact ⟨Or.inl rfl, hc2⟩
              · refine ⟨Or.inr h1, fun hs => h2 ?_⟩
                simp [hs]
            · rintro ⟨rfl | h1, h2⟩
              · exact Or.inl rfl
              · by_cases he : u = u0
                · exact Or.inl he
                · exact Or.inr ⟨h1, by simp [List.mem_cons, not_or, he, h2]⟩

/-- The kept URLs are pairwise distinct. -/
theorem urls_dedupByUrl_nodup :
    ∀ (l : List RawEntry) (seen : List String),
      ((dedupByUrl l seen).filterMap RawEntry.url).Nodup := by
  intro l
  induction l with
  | nil => intro seen; simp [dedupByUrl]
  | cons a rest ih =>
      intro seen
      cases hu : a.url with
      | none =>
          simp only [dedupByUrl, hu]
          exact ih seen
      | some u0 =>
          simp only [dedupByUrl, hu]
          by_cases hc : seen.contains u0
          · rw [if_pos hc]
            exact ih seen
          · rw [if_neg hc]
            simp only [List.filterMap_cons, hu, List.nodup_cons]
            refine ⟨fun hm => ?_, ih (u0 :: seen)⟩
            have := (mem_urls_dedupByUrl rest (u0 :: seen) u0).mp hm
            exact this.2 (List.mem_cons_self _ _)

/-- First occurrence wins: for a URL not yet seen, the entry found in the
deduplicated list is the first matching entry of the input. -/
theorem find_dedupByUrl :
    ∀ (l : List RawEntry) (seen : List String) (u : String), u ∉ seen →
      (dedupByUrl l seen).find? (fun e => e.url == some u)
        = l.find? (fun e => e.url == some u) := by
  intro l
  induction l with
  | nil => intro seen u hu; rfl
  | cons a rest ih =>
      intro seen u hseen
      cases hu : a.url with
      | none =>
          simp only [dedupByUrl, hu]
          have hpa : (a.url == some u) = false := by rw [hu]; rfl
          rw [List.find?_cons, hpa, ih seen u hseen]
      | some u0 =>
          by_cases hu0 : u0 = u
          · subst hu0
            simp only [dedupByUrl, hu]
            rw [if_neg (by simpa using hseen)]
            have hpa : (a.url == some u0) = true := by rw [hu]; simp
            rw [List.find?_cons, hpa, List.find?_cons, hpa]
          · have hpa : (a.url == some u) = false := by
              rw [hu]; simp [hu0]
            simp only [dedupByUrl, hu]
            by_cases hc : seen.contains u0
            · rw [if_pos hc, List.find?_cons, hpa, ih seen u hseen]
            · rw [if_neg hc, List.find?_cons, hpa, List.find?_cons, hpa]
              refine ih (u0 :: seen) u ?_
              intro hm
              rcases List.mem_cons.mp hm with rfl | hm2
              · exact hu0 rfl
              · exact hseen hm2

/-! ## C10 -/

/-- C10: every element of the synthesized `results` list carries a `url`
key, the kept URLs are pairwise distinct, every kept entry comes from the
flattened embedded results of the COMPLETED inputs (entries that are not
dicts or lack a url key are silently dropped), and `total_results` is by
construction the length of the returned list. -/
theorem synthesize_url_invariants :
    ∀ results : List ToolCallResult,
      (∀ e ∈ (process_search_results results).results, e.url.isSome = true)
      ∧ ((process_search_results results).results.filterMap RawEntry.url).Nodup
      ∧ (∀ e ∈ (process_search_results results).results,
          e ∈ combinedResults (results.filter (fun r => r.status == .COMPLETED)))
      ∧ (process_search_results results).total_results
          = (process_search_results results).results.length := by
  intro results
  have hr : (process_search_results results).results =
      dedupByUrl (combinedResults (results.filter (fun r => r.status == .COMPLETED))) [] :=
    rfl
  refine ⟨?_, ?_, ?_, rfl⟩
  · intro e he
    rw [hr] at he
    exact (mem_dedupByUrl _ _ _ he).2
  · rw [hr]
    exact urls_dedupByUrl_nodup _ _
  · intro e he
    rw [hr] at he
    exact (mem_dedupByUrl _ _ _ he).1

/-! ## C5 -/

/-- C5 (counterexample): the claim says `errors` collects the
error_message of every non-successful result, skipping only nulls; but
the source filter `if r.error_message` is a truthiness test, so a FAILED
result whose error_message is the empty string (present, non-null) is
skipped as well. -/
theorem synthesize_skips_empty_error_message :
    (process_search_results
        [{ tool_type := .WEB_SEARCH, input_data := "q", status := .FAILED,
           error_message := some "" }]).errors = []
    ∧ ({ tool_type := .WEB_SEARCH, input_data := "q", status := .FAILED,
         error_message := some "" } : ToolCallResult).error_message ≠ none
    ∧ (process_search_results
        [{ tool_type := .WEB_SEARCH, input_data := "q", status := .FAILED,
           error_message := some "" }]).failed_searches = 1 :=
  ⟨rfl, by decide, rfl⟩

/-- Two embedded entries sharing one URL. -/
def c5_dup_entries : List RawEntry :=
  [.dictEntry [("url", "http://a.com"), ("title", "A")],
   .dictEntry [("url", "http://a.com"), ("title", "B")]]

/-- Completed result whose embedded list has two entries sharing a URL. -/
def c5_completed_dup : ToolCallResult :=
  { tool_type := .WEB_SEARCH, input_data := "q1", status := .COMPLETED,
    metadata := some { results := some c5_dup_entries } }

/-- Failed result carrying an error message. -/
def c5_failed : ToolCallResult :=
  { tool_type := .WEB_SEARCH, input_data := "q2", status := .FAILED,
    error_message := some "Search failed" }

/-- The `errors` comprehension filter keeps exactly the present,
non-empty messages. -/
theorem errFilter_eq_some (r : ToolCallResult) (m : String) :
    ((match r.error_message with
      | some s => if s.isEmpty then none else some s
      | none => none) = some m)
    ↔ (r.error_message = some m ∧ m ≠ "") := by
  cases hem : r.error_message with
  | none => simp
  | some s =>
      by_cases hs : s.isEmpty
      · have hse : s = "" := (String.isEmpty_iff s).mp hs
        subst hse
        simp [hs]
        rintro rfl
        simp
      · have hne : s ≠ "" := by
          intro hcon
          subst hcon
          exact hs rfl
        simp only [hs, if_neg, Bool.false_eq_true, not_false_iff, ite_false,
          Option.some.injEq]
        constructor
        · rintro rfl
          exact ⟨rfl, hne⟩
        · rintro ⟨hsm, _⟩
          exact hsm

/-- C5 (amended): `successful_count` counts the COMPLETED results and
`failed_count` the rest; the embedded result lists of COMPLETED results
are flattened and deduplicated by URL with the first occurrence winning
in stable order (each URL appears exactly once); and `errors` collects
the error_message of every non-successful result, skipping nulls *and
empty strings* (the source filter is Python truthiness). The claimed
scenario holds: one completed result with a duplicated URL plus one
failed result synthesize to one success, one failure, one total result
and the failed message. -/
theorem synthesize_characterization :
    (∀ results : List ToolCallResult,
      (process_search_results results).successful_searches
        = results.countP (fun r => r.status == .COMPLETED)
      ∧ (process_search_results results).failed_searches
        = results.countP (fun r => !(r.status == .COMPLETED))
      ∧ (∀ u : String,
          u ∈ (process_search_results results).results.filterMap RawEntry.url
          ↔ u ∈ (combinedResults
              (results.filter (fun r => r.status == .COMPLETED))).filterMap RawEntry.url)
      ∧ List.Sublist (process_search_results results).results
          (combinedResults (results.filter (fun r => r.status == .COMPLETED)))
      ∧ (∀ u : String,
          u ∈ (combinedResults
              (results.filter (fun r => r.status == .COMPLETED))).filterMap RawEntry.url →
          (process_search_results results).results.find? (fun e => e.url == some u)
            = (combinedResults
                (results.filter (fun r => r.status == .COMPLETED))).find?
                (fun e => e.url == some u)
          ∧ ((process_search_results results).results.filterMap RawEntry.url).count u = 1)
      ∧ (∀ m : String, m ∈ (process_search_results results).errors
          ↔ ∃ r ∈ results, (r.status == .COMPLETED) = false
              ∧ r.error_message = some m ∧ m ≠ ""))
    ∧ process_search_results [c5_completed_dup, c5_failed] =
        { successful_searches := 1, failed_searches := 1, total_results := 1,
          results := [.dictEntry [("url", "http://a.com"), ("title", "A")]],
          errors := ["Search failed"] } := by
  constructor
  · intro results
    have hr : (process_search_results results).results =
        dedupByUrl (combinedResults (results.filter (fun r => r.status == .COMPLETED))) [] :=
      rfl
    refine ⟨?_, ?_, ?_, ?_, ?_, ?_⟩
    · rw [List.countP_eq_length_filter]; rfl
    · rw [List.countP_eq_length_filter]; rfl
    · intro u
      rw [hr, mem_urls_dedupByUrl]
      simp
    · rw [hr]
      exact dedupByUrl_sublist _ _
    · intro u hu
      constructor
      · rw [hr]
        exact find_dedupByUrl _ [] u (by simp)
      · refine List.count_eq_one_of_mem ?_ ?_
        · rw [hr]; exact urls_dedupByUrl_nodup _ _
        · rw [hr, mem_urls_dedupByUrl]
          exact ⟨hu, by simp⟩
    · intro m
      have he : (process_search_results results).errors =
          (results.filter (fun r => !(r.status == .COMPLETED))).filterMap (fun r =>
            match r.error_message with
            | some s => if s.isEmpty then none else some s
            | none => none) := rfl
      rw [he]
      simp only [List.mem_filterMap, List.mem_filter]
      constructor
      · rintro ⟨r, ⟨hrmem, hrst⟩, hm⟩
        have hch := (errFilter_eq_some r m).mp hm
        exact ⟨r, hrmem, by simpa using hrst, hch.1, hch.2⟩
      · rintro ⟨r, hrmem, hrst, hem, hne⟩
        exact ⟨r, ⟨hrmem, by simpa using hrst⟩,
          (errFilter_eq_some r m).mpr ⟨hem, hne⟩⟩
  · rfl
